import Mathlib

/-!
Verification of the zendo scene-generator core (`src/generate.py`,
`src/pipeline.py`, `src/main.py`) against its natural-language
specification.

The Python code is shallowly embedded: pure helpers become Lean
functions; the mutable Blender registry (`ZendoObject.instances`)
becomes an explicit list threaded through the placement functions;
the unbounded `while True` retry loops become fuel-indexed recursions
whose fuel exhaustion is reported as a distinguished `spin` outcome;
Python exceptions become explicit `err` outcomes.  External collaborators
(Blender geometry, the random number generator, and the repository
modules `zendo_objects` / `structure` that are not part of the sources
under verification) are oracles bundled in a `Geom` record; whatever the
claims need about them is taken from the specification and marked
`Modelled from the spec:` on the respective definition.
-/

namespace Zendo

/-- A 3-D vector.  Blender's float vectors are modelled with integer
coordinates: every geometric quantity the claims depend on is either
oracle-supplied or compared with a decidable order, so the choice of a
computable linearly ordered coordinate ring is free. -/
structure Vec3 where
  x : ℤ
  y : ℤ
  z : ℤ
deriving DecidableEq, Repr

/-- Componentwise vector addition (`Vector.__add__`). -/
def Vec3.add (a b : Vec3) : Vec3 := ⟨a.x + b.x, a.y + b.y, a.z + b.z⟩

/-- A scene object (`zendo_objects.ZendoObject`): identity, categorical
attributes, world transform (position and accumulated z-rotation) and the
per-face adjacency bookkeeping `touching` (face name to occupant id).
Modelled from the spec: the class itself lives in the `zendo_objects`
module, which is not among the sources; the fields are those the spec's
data model lists for a SceneObject. -/
structure ZendoObject where
  id : Nat
  shape : String
  color : String
  orientation : String
  pos : Vec3
  rotZ : ℤ
  touching : List (String × Nat)
deriving DecidableEq, Repr

/-- `obj.move(v)`: set the world position.  Modelled from the spec:
a translation call mutating only the transform. -/
def move (o : ZendoObject) (p : Vec3) : ZendoObject := { o with pos := p }

/-- `obj.rotate_z(d)`: add `d` to the accumulated z-rotation.  Modelled
from the spec: an additional z-rotation applied on top of the current one. -/
def rotate_z (o : ZendoObject) (d : ℤ) : ZendoObject := { o with rotZ := o.rotZ + d }

/-- `obj.set_touching(face, other)`: record `other` as the occupant of
`face` in the adjacency map.  Modelled from the spec: the face-adjacency
map maps a face identifier to the object currently occupying it. -/
def set_touching (o : ZendoObject) (face : String) (other : Nat) : ZendoObject :=
  { o with touching := (face, other) :: o.touching }

/-- Componentwise minimum corner of a corner list (the three
`min(v.x for v in bb)`-style reductions of `check_collision`).
A Blender bound box always has eight corners; the empty case (where
Python's `min()` would raise) is given a dummy value. -/
def bboxMin : List Vec3 → Vec3
  | [] => ⟨0, 0, 0⟩
  | c :: rest => rest.foldl (fun m v => ⟨min m.x v.x, min m.y v.y, min m.z v.z⟩) c

/-- Componentwise maximum corner of a corner list (the three
`max(v.x for v in bb)`-style reductions of `check_collision`). -/
def bboxMax : List Vec3 → Vec3
  | [] => ⟨0, 0, 0⟩
  | c :: rest => rest.foldl (fun m v => ⟨max m.x v.x, max m.y v.y, max m.z v.z⟩) c

/-- The AABB overlap test of `check_collision` (lines 69–71): all three
axis intervals overlap, with inclusive comparisons on both sides. -/
def aabbOverlap (aMin aMax bMin bMax : Vec3) : Bool :=
  aMin.x ≤ bMax.x && aMax.x ≥ bMin.x &&
  aMin.y ≤ bMax.y && aMax.y ≥ bMin.y &&
  aMin.z ≤ bMax.z && aMax.z ≥ bMin.z

/-- `check_collision(zendo_object, omit=None)` from `generate.py`:
walk `ZendoObject.instances` (here the explicit `instances` list), skip
the queried object itself and the optional `omit` object, and collect
every other object whose world AABB overlaps the queried object's.
The world-space corner list `matrix_world @ corner` is supplied by the
geometry oracle `corners`; the min/max reduction and the inclusive
overlap test are the source's. -/
def check_collision (corners : ZendoObject → List Vec3)
    (instances : List ZendoObject) (zendo_object : ZendoObject)
    (omitted : Option ZendoObject) : List ZendoObject :=
  match instances with
  | [] => []
  | other :: rest =>
    if other = zendo_object ∨ some other = omitted then
      check_collision corners rest zendo_object omitted
    else if aabbOverlap (bboxMin (corners zendo_object)) (bboxMax (corners zendo_object))
        (bboxMin (corners other)) (bboxMax (corners other)) then
      other :: check_collision corners rest zendo_object omitted
    else
      check_collision corners rest zendo_object omitted

/-- Modelled from the spec: the collision detector as §4.4 words it,
`colliding(object, registry, exempt: set<id>)` — every other registered
object, excluding `object` itself and any object whose id is in the
exempt set, whose AABB overlaps `object`'s.  Used only to compare the
spec's interface against the source's `check_collision`. -/
def colliding_spec (corners : ZendoObject → List Vec3)
    (instances : List ZendoObject) (zendo_object : ZendoObject)
    (exempt : List Nat) : List ZendoObject :=
  instances.filter (fun other =>
    other ≠ zendo_object ∧ other.id ∉ exempt ∧
    aabbOverlap (bboxMin (corners zendo_object)) (bboxMax (corners zendo_object))
      (bboxMin (corners other)) (bboxMax (corners other)) = true)

/-- A concrete geometry oracle for counterexamples and witnesses: every
object is an axis-aligned unit-radius cube centred at its position. -/
def cubeCorners (o : ZendoObject) : List Vec3 :=
  [⟨o.pos.x - 1, o.pos.y - 1, o.pos.z - 1⟩, ⟨o.pos.x + 1, o.pos.y + 1, o.pos.z + 1⟩]

/-- Concrete registered object with id 0 at the origin. -/
def objA : ZendoObject := ⟨0, "block", "red", "flat", ⟨0, 0, 0⟩, 0, []⟩

/-- Concrete registered object with id 1 at the origin. -/
def objB : ZendoObject := ⟨1, "block", "blue", "flat", ⟨0, 0, 0⟩, 0, []⟩

/-- Concrete registered object with id 2 at the origin. -/
def objC : ZendoObject := ⟨2, "pyramid", "yellow", "flat", ⟨0, 0, 0⟩, 0, []⟩

/-- A parsed instruction (the dict built in `generate_structure`,
lines 158–164): id, color, shape, orientation and the raw action text. -/
structure Instruction where
  id : Nat
  color : String
  shape : String
  orientation : String
  action : String
deriving DecidableEq, Repr

/-- Concrete registered object with the two-digit id 12. -/
def obj12 : ZendoObject := ⟨12, "wedge", "green", "flat", ⟨30, 0, 0⟩, 0, []⟩

/-- Concrete relational instruction whose action names the two-digit
target id 12. -/
def instTouching12 : Instruction := ⟨3, "red", "block", "flat", "touching(12)"⟩

/-- `\w` of Python's `re` on the identifiers used here: ASCII letters,
digits and underscore (the Unicode word characters Python would also
accept play no role in this grammar). -/
def wordChar (c : Char) : Bool := c.isAlphanum || c = '_'

/-- `\s` of Python's `re`: space, tab, newline, carriage return,
vertical tab and form feed (ASCII scope). -/
def pySpace (c : Char) : Bool :=
  c = ' ' || c = '\t' || c = '\n' || c = '\r' || c = '\x0b' || c = '\x0c'

/-- Strip a literal character sequence from the front of the input,
failing when the input does not start with it. -/
def dropLit : List Char → List Char → Option (List Char)
  | [], cs => some cs
  | _, [] => none
  | p :: ps, c :: cs => if c = p then dropLit ps cs else none

/-- Numeric value of a digit run, as Python's `int` reads it. -/
def digitsToNat (ds : List Char) : Nat :=
  ds.foldl (fun n c => 10 * n + (c.toNat - '0'.toNat)) 0

/-- The characters strictly before the last right parenthesis of the
input, provided that position is at least 1. -/
def beforeLastRParen (r : List Char) : Option (List Char) :=
  match r.reverse.dropWhile (fun c => c ≠ ')') with
  | ')' :: beforeRev => if beforeRev = [] then none else some beforeRev.reverse
  | _ => none

/-- What the final `\s*(.+)\)` of the item regex captures from the
remaining text `r`, given that `re.match` does not anchor the end of the
string: `.` never matches a newline, so only the first line of `r` is in
play; the group ends at the last `)` of that line (greedy `.+` with a
mandatory `)` after it); and the whitespace run is as long as greediness
of `\s*` permits while leaving the group at least one character
(backtracking hands whitespace back to `.+` when the `)` immediately
follows it). -/
def actionGroup (r : List Char) : Option (List Char) :=
  let seg := r.takeWhile (fun c => c ≠ '\n')
  match beforeLastRParen seg with
  | none => none
  | some g => some (g.drop (min (seg.takeWhile pySpace).length (g.length - 1)))

/-- One step of the middle of the item regex: `,\s*` followed by a
greedy `(\w+)` group, returning the group and the rest.  Whitespace is
not a word character, so both stars are deterministic maximal runs. -/
def commaWordGroup (r : List Char) : Option (List Char × List Char) :=
  match r with
  | ',' :: r1 =>
    let r2 := r1.dropWhile pySpace
    let w := r2.takeWhile wordChar
    if w = [] then none else some (w, r2.dropWhile wordChar)
  | _ => none

/-- `re.match(r"item\((\d+),\s*(\w+),\s*(\w+),\s*(\w+),\s*(.+)\)", item)`
from `generate_structure` (line 151), with the five groups assembled into
an `Instruction` as on lines 153–164.  The regex engine's behaviour on
this particular pattern: the literal head, three greedy digit/word groups
each terminated by a comma with optional whitespace, and a final greedy
`(.+)\)` that captures everything up to the last `)` of the remaining
text (the match is unanchored at the end). -/
def matchItem (s : String) : Option Instruction :=
  match dropLit "item(".data s.data with
  | none => none
  | some r0 =>
    let ds := r0.takeWhile Char.isDigit
    if ds = [] then none else
    match commaWordGroup (r0.dropWhile Char.isDigit) with
    | none => none
    | some (color, r1) =>
      match commaWordGroup r1 with
      | none => none
      | some (shape, r2) =>
        match commaWordGroup r2 with
        | none => none
        | some (orientation, r3) =>
          match r3 with
          | ',' :: r4 =>
            match actionGroup r4 with
            | none => none
            | some act =>
              some ⟨digitsToNat ds, String.mk color, String.mk shape,
                String.mk orientation, String.mk act⟩
          | _ => none

/-- The parsing loop of `generate_structure` (lines 150–164): each item
string that matches the regex contributes an instruction, every other
item is skipped with no other effect. -/
def parseItems : List String → List Instruction
  | [] => []
  | s :: rest =>
    match matchItem s with
    | some i => i :: parseItems rest
    | none => parseItems rest

/-- Python's `str.split` with a one-character separator, on the
character list of the string. -/
def splitOnChar (sep : Char) : List Char → List (List Char)
  | [] => [[]]
  | c :: cs =>
    let r := splitOnChar sep cs
    if c = sep then [] :: r
    else
      match r with
      | [] => [[c]]
      | h :: t => (c :: h) :: t

/-- `zendo_objects.get_object(id)`.  Modelled from the spec: the entity
registry resolves a target id to the registered object carrying that id
(the first one, in registration order). -/
def get_object (instances : List ZendoObject) (i : Nat) : Option ZendoObject :=
  instances.find? (fun o => o.id = i)

/-- `generate_relation(instruction)` from `generate.py` (lines 106–112):
split the action text at `'('`, take the piece before the first `'('` as
the relation kind, convert the FIRST character of the second piece with
`int(...)` and resolve it in the registry.  Python exceptions
(`IndexError` on a missing piece, `ValueError` on a non-digit) become
`Except.error`. -/
def generate_relation (instances : List ZendoObject) (instruction : Instruction) :
    Except String (String × ZendoObject) :=
  let relation := instruction.action
  let parts := splitOnChar '(' relation.data
  let relation_type := String.mk (parts.headD [])
  match parts.get? 1 with
  | none => Except.error "IndexError: list index out of range"
  | some p1 =>
    match p1 with
    | [] => Except.error "IndexError: string index out of range"
    | c :: _ =>
      if c.isDigit then
        match get_object instances (c.toNat - '0'.toNat) with
        | some target => Except.ok (relation_type, target)
        | none => Except.error "get_object: no object with this id"
      else Except.error "ValueError: invalid literal for int"

/-- The inner `while True` ray march of `check_pointing` (lines 28–41).
`rayCast` is Blender's `scene.ray_cast` reduced to what the code reads
from it: the hit location and the tracked object the hit resolves to
(`get_from_blender_obj`, `None` for an untracked obstacle); no hit ends
the march.  `advance` models `hit_location + direction * 0.01`, the
epsilon step past the hit surface (an oracle, since the epsilon is a
float).  The recorded-object filter — skip `None`, skip anything already
in `results`, skip the observer — is the source's. -/
def marchRay (rayCast : Vec3 → Vec3 → Option (Vec3 × Option ZendoObject))
    (advance : Vec3 → Vec3 → Vec3) (observer : ZendoObject)
    (results : List ZendoObject) (currentLoc dir : Vec3) :
    Nat → List ZendoObject
  | 0 => results
  | fuel + 1 =>
    match rayCast currentLoc dir with
    | none => results
    | some (hitLoc, zobj) =>
      let results1 :=
        match zobj with
        | some z => if z ∉ results ∧ z ≠ observer then results ++ [z] else results
        | none => results
      marchRay rayCast advance observer results1 (advance hitLoc dir) dir fuel

/-- `check_pointing(observer)` from `generate.py` (lines 13–44): march
every ray of the observer in turn, accumulating distinct hit objects in
one shared `results` list.  The observer's ray set
(`observer.get_rays()`) and the direction normalisation are geometry
collaborators, passed in as `rays` (already normalised origins and
directions). -/
def check_pointing (rayCast : Vec3 → Vec3 → Option (Vec3 × Option ZendoObject))
    (advance : Vec3 → Vec3 → Vec3) (observer : ZendoObject)
    (rays : List (Vec3 × Vec3)) (fuel : Nat) : List ZendoObject :=
  rays.foldl (fun results od => marchRay rayCast advance observer results od.1 od.2 fuel) []

lemma check_collision_mem {corners : ZendoObject → List Vec3}
    {instances : List ZendoObject} {z : ZendoObject} {omitted : Option ZendoObject}
    {o : ZendoObject} :
    o ∈ check_collision corners instances z omitted ↔
      o ∈ instances ∧ o ≠ z ∧ some o ≠ omitted ∧
      aabbOverlap (bboxMin (corners z)) (bboxMax (corners z))
        (bboxMin (corners o)) (bboxMax (corners o)) = true := by
  induction instances with
  | nil => simp [check_collision]
  | cons a rest ih =>
    by_cases hskip : a = z ∨ some a = omitted
    · rw [check_collision, if_pos hskip, ih]
      constructor
      · rintro ⟨h1, h2, h3, h4⟩
        exact ⟨List.mem_cons_of_mem _ h1, h2, h3, h4⟩
      · rintro ⟨h1, h2, h3, h4⟩
        rcases List.mem_cons.mp h1 with rfl | h1
        · rcases hskip with h | h
          · exact absurd h h2
          · exact absurd h h3
        · exact ⟨h1, h2, h3, h4⟩
    · rw [check_collision, if_neg hskip]
      by_cases hov : aabbOverlap (bboxMin (corners z)) (bboxMax (corners z))
          (bboxMin (corners a)) (bboxMax (corners a)) = true
      · rw [if_pos hov]
        constructor
        · intro h
          rcases List.mem_cons.mp h with rfl | h
          · push_neg at hskip
            exact ⟨List.mem_cons_self _ _, hskip.1, hskip.2, hov⟩
          · rcases ih.mp h with ⟨h1, h2, h3, h4⟩
            exact ⟨List.mem_cons_of_mem _ h1, h2, h3, h4⟩
        · rintro ⟨h1, h2, h3, h4⟩
          rcases List.mem_cons.mp h1 with rfl | h1
          · exact List.mem_cons_self _ _
          · exact List.mem_cons_of_mem _ (ih.mpr ⟨h1, h2, h3, h4⟩)
      · rw [if_neg hov, ih]
        constructor
        · rintro ⟨h1, h2, h3, h4⟩
          exact ⟨List.mem_cons_of_mem _ h1, h2, h3, h4⟩
        · rintro ⟨h1, h2, h3, h4⟩
          rcases List.mem_cons.mp h1 with rfl | h1
          · exact absurd h4 hov
          · exact ⟨h1, h2, h3, h4⟩

/-- The configuration surface as `generate_structure` and its helpers
read it (spec §6). -/
structure Args where
  placement_radius : ℤ
  anchor_position : Vec3
  random_face_choice : Bool
  random_object_rotation : Bool

/-- The external collaborators of the placement engine, bundled:
`corners` is Blender's world-space bound-box (`matrix_world @ corner`);
`flush` is the flush-contact placement the `structure` module's
`touching(...)` computes for a face (modelled from the spec: it
transforms only the newly placed object); `point` is the orientation the
`structure` module's `pointing(...)` gives the new object so its rays
pass through the target (modelled from the spec: it changes only the new
object's orientation); `sample` is the stream of polar offsets
`get_random_position` derives from the random number generator;
`choiceIdx` drives `random.choice`; `rotAngle` drives the random
z-rotation of `generate_creation`. -/
structure Geom where
  corners : ZendoObject → List Vec3
  flush : ZendoObject → ZendoObject → String → Vec3
  point : ZendoObject → ZendoObject → ℤ
  sample : Nat → Vec3
  choiceIdx : Nat → Nat
  rotAngle : Nat → ℤ

/-- Modelled from the spec: `face_map` of the `structure` module (not
among the sources) — §3's closed enumeration of side faces, each mapped
to an (axis, sign) pair, the opposite of (axis, s) being (axis, -s). -/
def face_map : List (String × (Nat × ℤ)) :=
  [("left", (0, -1)), ("right", (0, 1)), ("front", (1, -1)), ("back", (1, 1))]

/-- Modelled from the spec: `target.get_free_face()` — the faces of the
closed enumeration not currently occupied in the object's adjacency
map, in enumeration order. -/
def get_free_face (o : ZendoObject) : List String :=
  (face_map.filter (fun p => (o.touching.find? (fun q => q.1 = p.1)).isNone)).map
    (fun p => p.1)

/-- The opposite-face computation of `generate_structure` lines 215–216:
`axis, direction = face_map[face]` followed by looking up the key whose
value is `(axis, direction * (-1))` (`list(face_map.keys())[...index...]`,
i.e. the first such key).  A failed dictionary or index lookup is `none`
(Python would raise). -/
def opposite_face (face : String) : Option String :=
  match face_map.find? (fun p => p.1 = face) with
  | none => none
  | some (_, axis, dir) =>
    match face_map.find? (fun p => p.2 = (axis, -dir)) with
    | none => none
    | some q => some q.1

/-- The `key=lambda x: x['id']` ordering of `sorted`. -/
def byId : Instruction → Instruction → Prop := fun a b => a.id ≤ b.id

instance : DecidableRel byId := fun a b => Nat.decLe a.id b.id

instance : IsTotal Instruction byId := ⟨fun a b => Nat.le_total a.id b.id⟩

instance : IsTrans Instruction byId := ⟨fun _ _ _ => Nat.le_trans⟩

/-- `get_grounded` from `generate.py` (lines 88–91): the instructions
whose action is the `grounded` literal, stably sorted by id (Python's
`sorted` is a stable sort, as is the insertion sort used here). -/
def get_grounded (instructions : List Instruction) : List Instruction :=
  (instructions.filter (fun i => i.action = "grounded")).insertionSort byId

/-- `get_relations` from `generate.py` (lines 93–96): the instructions
whose action is not the `grounded` literal, stably sorted by id. -/
def get_relations (instructions : List Instruction) : List Instruction :=
  (instructions.filter (fun i => ¬ i.action = "grounded")).insertionSort byId

/-- `generate_creation(args, instruction)` from `generate.py`
(lines 115–140): instantiate the object for a known shape, then apply a
random z-rotation when configured.  For an unknown shape no branch
assigns `obj` and the trailing use of `obj` raises (`err`).  The
object's initial position before any `move` is immaterial to every
observable of the engine and is modelled as the origin; creation also
registers the object, which the callers below reflect by appending it to
the registry list. -/
def generate_creation (args : Args) (g : Geom) (k : Nat)
    (instruction : Instruction) : Except String ZendoObject :=
  if instruction.shape = "block" ∨ instruction.shape = "wedge" ∨
      instruction.shape = "pyramid" then
    let obj : ZendoObject :=
      { id := instruction.id, shape := instruction.shape,
        color := instruction.color, orientation := instruction.orientation,
        pos := ⟨0, 0, 0⟩, rotZ := 0, touching := [] }
    if args.random_object_rotation then Except.ok (rotate_z obj (g.rotAngle k))
    else Except.ok obj
  else Except.error "NameError: obj referenced before assignment"

/-- `get_random_position(anchor, radius)` from `generate.py`
(lines 76–86): the anchor plus a polar offset `(d cos a, d sin a, 0)`
drawn from the random number generator; the offset itself is
oracle-supplied (`Geom.sample`), the addition is the source's. -/
def get_random_position (anchor offset : Vec3) : Vec3 := anchor.add offset

/-- Modelled from the spec: `touching(current, target, face)` of the
`structure` module positions the new object flush against the chosen
face of the target; only the new object is transformed. -/
def touching_place (g : Geom) (cur target : ZendoObject) (face : String) :
    ZendoObject :=
  { cur with pos := g.flush cur target face }

/-- Modelled from the spec: `pointing(current, target)` of the
`structure` module orients the new object so its directional rays pass
through the target; only the new object is transformed. -/
def pointing_place (g : Geom) (cur target : ZendoObject) : ZendoObject :=
  { cur with rotZ := g.point cur target }

/-- In-place mutation of a registered object, seen from the registry
list: the entry carrying the mutated object's id is replaced.  Under the
spec's invariant that ids are unique among registered objects this is
exactly Python's aliasing of the one shared object. -/
def updateById (instances : List ZendoObject) (i : Nat) (o1 : ZendoObject) :
    List ZendoObject :=
  instances.map (fun o => if o.id = i then o1 else o)

/-- Outcome of one phase of the placement engine: success carrying a
value, a Python exception carrying its message and the registry at raise
time, or `spin` — the phase is still inside an unbounded `while True`
loop when the fuel runs out, i.e. no exit within any given number of
iterations. -/
inductive PhaseResult (α : Type) where
  | ok (a : α)
  | err (msg : String) (instances : List ZendoObject)
  | spin
deriving DecidableEq

/-- Outcome of a whole `generate_structure` call. -/
inductive GenResult where
  | ok (instances : List ZendoObject)
  | err (msg : String) (instances : List ZendoObject)
  | spin
deriving DecidableEq

/-- The grounded-scattering `while True` loop of `generate_structure`
(lines 182–191): sample a position, move the object there, accept as
soon as `check_collision` reports no collision, otherwise loop.  `k`
indexes the random streams; the fuel argument counts remaining
iterations, `spin` meaning the loop has not exited within the given
fuel. -/
def groundedLoop (args : Args) (g : Geom) (others : List ZendoObject)
    (cur : ZendoObject) (k : Nat) : Nat → PhaseResult (ZendoObject × Nat)
  | 0 => PhaseResult.spin
  | fuel + 1 =>
    let pos := get_random_position args.anchor_position (g.sample k)
    let cur1 := move cur pos
    if check_collision g.corners (others ++ [cur1]) cur1 none = [] then
      PhaseResult.ok (cur1, k + 1)
    else groundedLoop args g others cur1 (k + 1) fuel

/-- The grounded-placement `for` loop of `generate_structure`
(lines 179–191): create each remaining grounded object, rotate it by 90
degrees, and scatter it with `groundedLoop`; each placed object joins
the registry. -/
def placeGroundedList (args : Args) (g : Geom) :
    List Instruction → List ZendoObject → Nat → Nat →
      PhaseResult (List ZendoObject × Nat)
  | [], others, k, _ => PhaseResult.ok (others, k)
  | instruction :: rest, others, k, fuel =>
    match generate_creation args g k instruction with
    | Except.error m => PhaseResult.err m others
    | Except.ok cur0 =>
      let cur1 := rotate_z cur0 90
      match groundedLoop args g others cur1 (k + 1) fuel with
      | PhaseResult.spin => PhaseResult.spin
      | PhaseResult.err m r => PhaseResult.err m r
      | PhaseResult.ok (cur2, k2) =>
        placeGroundedList args g rest (others ++ [cur2]) k2 fuel

/-- The relation-resolution `while True` loop of `generate_structure`
(lines 200–233), dispatched on the relation kind.  `touching`: choose a
free face of the target (first or random per configuration), rotate the
new object by 90 degrees, place it flush, and on a collision-free check
(target exempted) record the adjacency on both sides using the static
opposite-face mapping and leave the loop.  `pointing`: sample a position,
orient towards the target, accept on a collision-free check.
`on_top_of` only prints its stub message, and a relation kind matching no
branch runs no code at all: in both cases no `break` is ever reached and
the `while True` loop continues unchanged. -/
def relationLoop (args : Args) (g : Geom) (relation_type : String)
    (target : ZendoObject) (others : List ZendoObject) (cur : ZendoObject)
    (k : Nat) : Nat → PhaseResult (List ZendoObject × ZendoObject × Nat)
  | 0 => PhaseResult.spin
  | fuel + 1 =>
    if relation_type = "touching" then
      let faces := get_free_face target
      let faceIdx := if args.random_face_choice then g.choiceIdx k % faces.length else 0
      match faces.get? faceIdx with
      | none => PhaseResult.err "IndexError: list index out of range" (others ++ [cur])
      | some face =>
        let cur2 := touching_place g (rotate_z cur 90) target face
        if check_collision g.corners (others ++ [cur2]) cur2 (some target) = [] then
          let target1 := set_touching target face cur2.id
          match opposite_face face with
          | none =>
            PhaseResult.err "ValueError: x not in tuple"
              (updateById others target.id target1 ++ [cur2])
          | some object_1_face =>
            PhaseResult.ok (updateById others target.id target1,
              set_touching cur2 object_1_face target.id, k + 1)
        else relationLoop args g relation_type target others cur2 (k + 1) fuel
    else if relation_type = "pointing" then
      let pos := get_random_position args.anchor_position (g.sample k)
      let cur1 := pointing_place g (move cur pos) target
      if check_collision g.corners (others ++ [cur1]) cur1 none = [] then
        PhaseResult.ok (others, cur1, k + 1)
      else relationLoop args g relation_type target others cur1 (k + 1) fuel
    else
      relationLoop args g relation_type target others cur k fuel

/-- The relation-placement `for` loop of `generate_structure`
(lines 195–233): create each relational object, resolve its relation
text and target with `generate_relation` against the registry (which
already contains the new object), and run the relation-resolution
loop. -/
def placeRelatedList (args : Args) (g : Geom) :
    List Instruction → List ZendoObject → Nat → Nat →
      PhaseResult (List ZendoObject × Nat)
  | [], others, k, _ => PhaseResult.ok (others, k)
  | instruction :: rest, others, k, fuel =>
    match generate_creation args g k instruction with
    | Except.error m => PhaseResult.err m others
    | Except.ok cur =>
      match generate_relation (others ++ [cur]) instruction with
      | Except.error m => PhaseResult.err m (others ++ [cur])
      | Except.ok (relation_type, target) =>
        match relationLoop args g relation_type target others cur (k + 1) fuel with
        | PhaseResult.spin => PhaseResult.spin
        | PhaseResult.err m r => PhaseResult.err m r
        | PhaseResult.ok (others1, cur1, k1) =>
          placeRelatedList args g rest (others1 ++ [cur1]) k1 fuel

/-- `generate_structure(args, prolog_string)` from `generate.py`
(lines 142–241): parse the items, partition into grounded and relational
instructions, realize the lowest-id grounded instruction at the
configured anchor position with no collision check, scatter the
remaining grounded objects, then resolve the relational instructions.
`reg0` is the registry (`ZendoObject.instances`) on entry — empty in the
running program.  The trailing `check_pointing` pass only prints and is
not part of the returned state. -/
def generate_structure (args : Args) (g : Geom) (items : List String)
    (reg0 : List ZendoObject) (fuel : Nat) : GenResult :=
  let instructions := parseItems items
  let grounded_objects := get_grounded instructions
  let related_objects := get_relations instructions
  match grounded_objects with
  | [] => GenResult.err "IndexError: list index out of range" reg0
  | anchor :: grounded_rest =>
    match generate_creation args g 0 anchor with
    | Except.error m => GenResult.err m reg0
    | Except.ok a0 =>
      let anchor_obj := move a0 args.anchor_position
      match placeGroundedList args g grounded_rest (reg0 ++ [anchor_obj]) 1 fuel with
      | PhaseResult.spin => GenResult.spin
      | PhaseResult.err m r => GenResult.err m r
      | PhaseResult.ok (reg1, k1) =>
        match placeRelatedList args g related_objects reg1 k1 fuel with
        | PhaseResult.spin => GenResult.spin
        | PhaseResult.err m r => GenResult.err m r
        | PhaseResult.ok (reg2, _) => GenResult.ok reg2

/-- Concrete configuration for witnesses and counterexamples. -/
def args0 : Args := ⟨5, ⟨0, 0, 0⟩, false, false⟩

/-- Concrete oracle bundle for witnesses and counterexamples: unit cubes,
flush contact two units along x from the target, all random streams
constant. -/
def geom0 : Geom :=
  { corners := cubeCorners,
    flush := fun _ t _ => ⟨t.pos.x + 2, t.pos.y, t.pos.z⟩,
    point := fun _ _ => 0,
    sample := fun _ => ⟨0, 0, 0⟩,
    choiceIdx := fun _ => 0,
    rotAngle := fun _ => 0 }

/-- The sampling disc of `get_random_position`: a polar offset
`(d cos a, d sin a, 0)` with `0 ≤ d ≤ radius` lies in the closed disc of
that radius about the origin of the ground plane. -/
def inDisc (radius : ℤ) (offset : Vec3) : Prop :=
  offset.x ^ 2 + offset.y ^ 2 ≤ radius ^ 2 ∧ offset.z = 0

/-- A concrete instruction stream whose single relational instruction is
an `on_top_of` relation. -/
def itemsOnTop : List String :=
  ["item(0, red, block, flat, grounded)", "item(1, blue, pyramid, flat, on_top_of(0))"]

/-- `generate_full_scene(args, scene_index)` from `pipeline.py`
(lines 18–69), reduced to its attempt skeleton: up to `resolve_attempts`
attempts; an attempt that reaches the save path returns `True`
immediately, a failed attempt is cleaned up and retried; after the loop
all attempts have failed, the failure is logged and `False` is returned.
Whether attempt `a` succeeds is the oracle `attemptSucceeds a`,
absorbing rule generation, the Prolog query and `generate_structure`. -/
def generate_full_scene (resolve_attempts : Nat) (attemptSucceeds : Nat → Bool) :
    Bool :=
  (List.range resolve_attempts).any attemptSucceeds

/-- Python's set equality on index sets. -/
def sameSet (a b : List Nat) : Bool :=
  a.all (fun x => x ∈ b) && b.all (fun x => x ∈ a)

/-- The `scene_<i>.blend` files present once the pool has completed:
`generate_full_scene` saves the blend file exactly on its success path
(`pipeline.py` lines 41–43), and after `pool.join()` nothing writes
further files, so scene `i`'s file exists iff worker `i` returned
success. -/
def blendFilesWritten (results : List Bool) : List Nat :=
  (List.range results.length).filter (fun i => results.getD i false)

/-- The `while actual_blend_files != expected_blend_files` wait loop of
`run_generation` (`main.py` lines 31–36): test, and while unequal rescan
the directory (always yielding `written`) and test again.  Fuel-indexed:
`none` means the loop has not exited within `fuel` iterations. -/
def waitLoop (expected written : List Nat) : List Nat → Nat → Option Unit
  | _, 0 => none
  | actual, fuel + 1 =>
    if sameSet actual expected then some ()
    else waitLoop expected written written fuel

/-- `run_generation(args)` from `main.py` (lines 16–37): one
`generate_full_scene` outcome per scene index (`results`), the success
count computed and logged, then the blend-file wait loop with
`expected_blend_files = {scene_i | i < num_rules}` starting from the
empty `actual` set.  The first component is the logged success count;
the second is `some ()` exactly when the generation phase completes and
control can proceed to rendering. -/
def run_generation (results : List Bool) (fuel : Nat) : Nat × Option Unit :=
  let success_count := (results.filter (fun b => b)).length
  let expected := List.range results.length
  (success_count, waitLoop expected (blendFilesWritten results) [] fuel)

lemma marchRay_invariant (rayCast : Vec3 → Vec3 → Option (Vec3 × Option ZendoObject))
    (advance : Vec3 → Vec3 → Vec3) (observer : ZendoObject) :
    ∀ (fuel : Nat) (results : List ZendoObject) (currentLoc dir : Vec3),
      observer ∉ results → results.Nodup →
      observer ∉ marchRay rayCast advance observer results currentLoc dir fuel ∧
        (marchRay rayCast advance observer results currentLoc dir fuel).Nodup := by
  intro fuel
  induction fuel with
  | zero => intro results _ _ h1 h2; exact ⟨h1, h2⟩
  | succ n ih =>
    intro results currentLoc dir h1 h2
    rw [marchRay]
    match rayCast currentLoc dir with
    | none => exact ⟨h1, h2⟩
    | some (hitLoc, zobj) =>
      match zobj with
      | none => exact ih results (advance hitLoc dir) dir h1 h2
      | some z =>
        by_cases hz : z ∉ results ∧ z ≠ observer
        · simp only [if_pos hz]
          refine ih _ (advance hitLoc dir) dir ?_ ?_
          · intro hmem
            rcases List.mem_append.mp hmem with hmem | hmem
            · exact h1 hmem
            · rcases List.mem_singleton.mp hmem with rfl
              exact hz.2 rfl
          · rw [List.nodup_append]
            exact ⟨h2, List.nodup_singleton z, by
              intro a ha hb
              rcases List.mem_singleton.mp hb with rfl
              exact hz.1 ha⟩
        · simp only [if_neg hz]
          exact ih results (advance hitLoc dir) dir h1 h2

/-- C7: the visibility ray-caster never reports the observer itself and
never reports the same object twice, whatever the scene's ray-cast
behaviour, the observer's ray set, and however many march steps the rays
take — the shared `results` accumulator of `check_pointing` filters out
the observer and anything already recorded. -/
theorem check_pointing_no_self_no_dup
    (rayCast : Vec3 → Vec3 → Option (Vec3 × Option ZendoObject))
    (advance : Vec3 → Vec3 → Vec3) (observer : ZendoObject)
    (rays : List (Vec3 × Vec3)) (fuel : Nat) :
    observer ∉ check_pointing rayCast advance observer rays fuel ∧
      (check_pointing rayCast advance observer rays fuel).Nodup := by
  rw [check_pointing]
  generalize hstart : ([] : List ZendoObject) = start
  have h1 : observer ∉ start := by rw [← hstart]; exact List.not_mem_nil _
  have h2 : start.Nodup := by rw [← hstart]; exact List.nodup_nil
  clear hstart
  induction rays generalizing start with
  | nil => exact ⟨h1, h2⟩
  | cons r rest ih =>
    rw [List.foldl_cons]
    obtain ⟨m1, m2⟩ := marchRay_invariant rayCast advance observer fuel start r.1 r.2 h1 h2
    exact ih _ m1 m2

lemma splitOnChar_of_not_mem {sep : Char} {ys : List Char} (h : sep ∉ ys) :
    splitOnChar sep ys = [ys] := by
  induction ys with
  | nil => rfl
  | cons c cs ih =>
    have hc : ¬ c = sep := fun hcs => h (hcs ▸ List.mem_cons_self _ _)
    have hcs : sep ∉ cs := fun hm => h (List.mem_cons_of_mem _ hm)
    rw [splitOnChar, if_neg hc, ih hcs]

lemma splitOnChar_append {sep : Char} {xs ys : List Char} (h : sep ∉ xs) :
    splitOnChar sep (xs ++ sep :: ys) = xs :: splitOnChar sep ys := by
  induction xs with
  | nil => simp [splitOnChar]
  | cons c cs ih =>
    have hc : ¬ c = sep := fun hcs => h (hcs ▸ List.mem_cons_self _ _)
    have hcs : sep ∉ cs := fun hm => h (List.mem_cons_of_mem _ hm)
    rw [List.cons_append, splitOnChar, if_neg hc, ih hcs]

lemma splitOnChar_cons_head {sep c : Char} (cs : List Char) (h : ¬ c = sep) :
    ∃ tl rs, splitOnChar sep (c :: cs) = (c :: tl) :: rs := by
  rw [splitOnChar, if_neg h]
  match hsplit : splitOnChar sep cs with
  | [] => exact ⟨[], [], rfl⟩
  | hd :: t => exact ⟨hd, t, rfl⟩

lemma parseItems_eq_filterMap (items : List String) :
    parseItems items = items.filterMap matchItem := by
  induction items with
  | nil => rfl
  | cons s rest ih =>
    rw [parseItems, List.filterMap_cons]
    cases matchItem s <;> simp [ih]

/-- C9: the parsing loop of `generate_structure` keeps exactly the facts
matching the `item(id, color, shape, orientation, action)` grammar, and a
malformed fact is dropped silently: its presence anywhere in the raw
sequence leaves the parsed instruction list unchanged.  The parsing
functions are total, so no input raises. -/
theorem parse_drops_malformed_silently (xs ys : List String) (s : String)
    (h : matchItem s = none) :
    parseItems (xs ++ s :: ys) = parseItems (xs ++ ys) ∧
    parseItems (xs ++ s :: ys) = (xs ++ s :: ys).filterMap matchItem := by
  refine ⟨?_, parseItems_eq_filterMap _⟩
  rw [parseItems_eq_filterMap, parseItems_eq_filterMap,
    List.filterMap_append, List.filterMap_append, List.filterMap_cons, h]

/-- C9 (witness): a concrete run — one well-formed fact surrounded by two
malformed ones parses to exactly the one instruction. -/
theorem parse_drops_malformed_silently_witness :
    matchItem "garbage" = none ∧
    parseItems ["item(0, red, block, flat, grounded)", "garbage"] =
      parseItems ["item(0, red, block, flat, grounded)"] := by
  have h : matchItem "garbage" = none := by decide
  exact ⟨h,
    (parse_drops_malformed_silently ["item(0, red, block, flat, grounded)"] [] "garbage" h).1⟩

lemma relationLoop_stub_spin (args : Args) (g : Geom) (relation_type : String)
    (target : ZendoObject) (others : List ZendoObject) (cur : ZendoObject)
    (k : Nat) (h1 : ¬ relation_type = "touching")
    (h2 : ¬ relation_type = "pointing") :
    ∀ fuel, relationLoop args g relation_type target others cur k fuel =
      PhaseResult.spin := by
  intro fuel
  induction fuel with
  | zero => rfl
  | succ n ih => rw [relationLoop, if_neg h1, if_neg h2]; exact ih

/-- C1 (counterexample): on a concrete instruction set whose one
relational instruction is `on_top_of(0)`, `generate_structure` never
terminates — for no number of loop iterations does it leave the
relation-resolution loop, reach the post-pass pointing verification, or
produce any outcome other than `spin`.  The stub `print` branch is not a
terminating no-op. -/
theorem on_top_of_noop_cex :
    ¬ ∃ fuel : Nat,
      generate_structure args0 geom0 itemsOnTop [] fuel ≠ GenResult.spin := by
  have hall : ∀ fuel,
      generate_structure args0 geom0 itemsOnTop [] fuel = GenResult.spin := by
    intro fuel
    induction fuel with
    | zero => rfl
    | succ n ih => exact ih
  rintro ⟨fuel, hne⟩
  exact hne (hall fuel)

/-- C1 (amended): for every relational instruction of kind `on_top_of`,
the relation-resolution step performs no placement and never exits: the
stub branch only prints and reaches no `break`, so the `while True` loop
spins for every iteration bound and `generate_structure` never proceeds
to the next instruction or to the post-pass pointing verification. -/
theorem on_top_of_spins_forever (args : Args) (g : Geom)
    (target : ZendoObject) (others : List ZendoObject) (cur : ZendoObject)
    (k fuel : Nat) :
    relationLoop args g "on_top_of" target others cur k fuel =
      PhaseResult.spin :=
  relationLoop_stub_spin args g "on_top_of" target others cur k
    (by decide) (by decide) fuel

/-- C10: when the parsed instruction list contains no grounded
instruction, `generate_structure` raises the `grounded_objects[0]`
IndexError before any object is created, registered or placed: the
outcome is an error carrying the entry registry unchanged. -/
theorem no_grounded_raises_before_any_creation (args : Args) (g : Geom)
    (items : List String) (reg0 : List ZendoObject) (fuel : Nat)
    (h : get_grounded (parseItems items) = []) :
    generate_structure args g items reg0 fuel =
      GenResult.err "IndexError: list index out of range" reg0 := by
  unfold generate_structure
  simp only []
  rw [h]

/-- C10 (witness): a concrete run with one (relational-only) instruction
and a non-empty entry registry errors out with that registry intact. -/
theorem no_grounded_raises_witness :
    get_grounded (parseItems ["item(0, red, block, flat, pointing(1))"]) = [] ∧
    generate_structure args0 geom0 ["item(0, red, block, flat, pointing(1))"]
        [objA] 3 =
      GenResult.err "IndexError: list index out of range" [objA] := by
  have h : get_grounded (parseItems ["item(0, red, block, flat, pointing(1))"]) = [] := by
    decide
  exact ⟨h, no_grounded_raises_before_any_creation args0 geom0 _ [objA] 3 h⟩

/-- C4: if the object being scattered overlaps no already-placed object
at any position within `placement_radius` of the anchor, the
grounded-scattering loop accepts the very first sampled position: for
every fuel bound of at least one iteration it succeeds, placing the
object at the first sample — it terminates within one attempt, hence
within any finite attempt cap. -/
theorem grounded_scatter_terminates_first_attempt (args : Args) (g : Geom)
    (others : List ZendoObject) (cur : ZendoObject) (k fuel : Nat)
    (hsample : ∀ i, inDisc args.placement_radius (g.sample i))
    (hfree : ∀ p, inDisc args.placement_radius p →
      check_collision g.corners
        (others ++ [move cur (get_random_position args.anchor_position p)])
        (move cur (get_random_position args.anchor_position p)) none = []) :
    groundedLoop args g others cur k (fuel + 1) =
      PhaseResult.ok
        (move cur (get_random_position args.anchor_position (g.sample k)), k + 1) := by
  rw [groundedLoop]
  rw [if_pos (hfree (g.sample k) (hsample k))]

/-- C4 (witness): with no other object placed, the loop succeeds on its
first sample for the concrete configuration. -/
theorem grounded_scatter_terminates_witness :
    groundedLoop args0 geom0 [] objC 0 1 =
      PhaseResult.ok (move objC ⟨0, 0, 0⟩, 1) := by
  have h := grounded_scatter_terminates_first_attempt args0 geom0 [] objC 0 0
    (fun i => ⟨by norm_num [geom0, args0], rfl⟩)
    (fun p _ => by simp [check_collision])
  exact h

lemma opposite_face_eq {f of : String} (h : opposite_face f = some of) :
    (f = "left" ∧ of = "right") ∨ (f = "right" ∧ of = "left") ∨
    (f = "front" ∧ of = "back") ∨ (f = "back" ∧ of = "front") := by
  unfold opposite_face at h
  rcases hf : face_map.find? (fun p => p.1 = f) with _ | entry
  · rw [hf] at h
    cases h
  · rw [hf] at h
    have hp := List.find?_some hf
    have hm := List.mem_of_find?_eq_some hf
    simp only [decide_eq_true_eq] at hp
    fin_cases hm
    · exact Or.inl ⟨hp.symm, (Option.some.inj h).symm⟩
    · exact Or.inr (Or.inl ⟨hp.symm, (Option.some.inj h).symm⟩)
    · exact Or.inr (Or.inr (Or.inl ⟨hp.symm, (Option.some.inj h).symm⟩))
    · exact Or.inr (Or.inr (Or.inr ⟨hp.symm, (Option.some.inj h).symm⟩))

lemma opposite_face_symm {f of : String} (h : opposite_face f = some of) :
    opposite_face of = some f := by
  rcases opposite_face_eq h with ⟨rfl, rfl⟩ | ⟨rfl, rfl⟩ | ⟨rfl, rfl⟩ | ⟨rfl, rfl⟩ <;> rfl

lemma relationLoop_touching_ok (args : Args) (g : Geom) (target : ZendoObject)
    (others others1 : List ZendoObject) (cur1 : ZendoObject) (k1 : Nat) :
    ∀ (fuel k : Nat) (cur : ZendoObject),
      relationLoop args g "touching" target others cur k fuel =
        PhaseResult.ok (others1, cur1, k1) →
      ∃ face oface cur2,
        opposite_face face = some oface ∧
        others1 = updateById others target.id (set_touching target face cur2.id) ∧
        cur1 = set_touching cur2 oface target.id := by
  intro fuel
  induction fuel with
  | zero =>
    intro k cur h
    cases h
  | succ n ih =>
    intro k cur h
    rw [relationLoop, if_pos rfl] at h
    simp only [] at h
    rcases hface : (get_free_face target).get?
        (if args.random_face_choice then g.choiceIdx k % (get_free_face target).length
         else 0) with _ | face
    · rw [hface] at h
      simp only [] at h
      cases h
    · rw [hface] at h
      simp only [] at h
      by_cases hcol : check_collision g.corners
          (others ++ [touching_place g (rotate_z cur 90) target face])
          (touching_place g (rotate_z cur 90) target face) (some target) = []
      · rw [if_pos hcol] at h
        rcases hopp : opposite_face face with _ | oface
        · rw [hopp] at h
          cases h
        · rw [hopp] at h
          injection h with h1
          refine ⟨face, oface, touching_place g (rotate_z cur 90) target face,
            hopp, ?_, ?_⟩
          · exact (congrArg Prod.fst h1).symm
          · exact (congrArg (fun p => p.2.1) h1).symm
      · rw [if_neg hcol] at h
        exact ih (k + 1) _ h

/-- C6: whenever a touching relation resolves successfully (the
collision check excluding the target reports nothing), the adjacency is
recorded symmetrically: there are faces `face` and `oface` that are each
other's static opposite under the face-opposite mapping, with the target
recording `face` occupied by the new object and the new object recording
`oface` occupied by the target. -/
theorem touching_adjacency_symmetric {args : Args} {g : Geom}
    {target : ZendoObject} {others others1 : List ZendoObject}
    {cur cur1 : ZendoObject} {k k1 fuel : Nat}
    (h : relationLoop args g "touching" target others cur k fuel =
      PhaseResult.ok (others1, cur1, k1)) :
    ∃ face oface cur2,
      opposite_face face = some oface ∧ opposite_face oface = some face ∧
      others1 = updateById others target.id (set_touching target face cur2.id) ∧
      cur1 = set_touching cur2 oface target.id := by
  obtain ⟨face, oface, cur2, ho, h1, h2⟩ :=
    relationLoop_touching_ok args g target others others1 cur1 k1 fuel k cur h
  exact ⟨face, oface, cur2, ho, opposite_face_symm ho, h1, h2⟩

/-- C6 (witness): the concrete successful touching resolution — object 2
flush against the left face of object 0 — records `left` on the target
and the static opposite `right` on the new object. -/
theorem touching_adjacency_symmetric_witness :
    ∃ face oface cur2,
      opposite_face face = some oface ∧ opposite_face oface = some face ∧
      [(⟨0, "block", "red", "flat", ⟨0, 0, 0⟩, 0, [("left", 2)]⟩ : ZendoObject)] =
        updateById [objA] objA.id (set_touching objA face cur2.id) ∧
      (⟨2, "pyramid", "yellow", "flat", ⟨2, 0, 0⟩, 90, [("right", 0)]⟩ : ZendoObject) =
        set_touching cur2 oface objA.id :=
  @touching_adjacency_symmetric args0 geom0 objA [objA]
    [(⟨0, "block", "red", "flat", ⟨0, 0, 0⟩, 0, [("left", 2)]⟩ : ZendoObject)]
    objC (⟨2, "pyramid", "yellow", "flat", ⟨2, 0, 0⟩, 90, [("right", 0)]⟩ : ZendoObject)
    0 1 1 rfl

lemma get_object_id {reg : List ZendoObject} {d : Nat} {t : ZendoObject}
    (h : get_object reg d = some t) : t.id = d := by
  have hp := List.find?_some h
  simpa using hp

lemma get_object_cons_self {o : ZendoObject} {l : List ZendoObject} {d : Nat}
    {t : ZendoObject} (h : get_object (o :: l) d = some t) (ho : o.id = d) :
    t = o := by
  rw [get_object, List.find?_cons_of_pos _ (by simpa using ho)] at h
  exact (Option.some.inj h).symm

lemma generate_relation_ok_target {reg : List ZendoObject} {instr : Instruction}
    {rt : String} {t : ZendoObject}
    (h : generate_relation reg instr = Except.ok (rt, t)) :
    ∃ d, get_object reg d = some t := by
  unfold generate_relation at h
  simp only [] at h
  rcases hp : (splitOnChar '(' instr.action.data).get? 1 with _ | p1
  · rw [hp] at h
    cases h
  · rw [hp] at h
    simp only [] at h
    cases p1 with
    | nil => cases h
    | cons c cs =>
      simp only [] at h
      by_cases hd : c.isDigit = true
      · rw [if_pos hd] at h
        rcases hobj : get_object reg (c.toNat - '0'.toNat) with _ | tgt
        · rw [hobj] at h
          cases h
        · rw [hobj] at h
          injection h with h1
          have ht : tgt = t := congrArg Prod.snd h1
          exact ⟨c.toNat - '0'.toNat, ht ▸ hobj⟩
      · rw [if_neg hd] at h
        cases h

lemma updateById_cons (o : ZendoObject) (l : List ZendoObject) (i : Nat)
    (o1 : ZendoObject) :
    updateById (o :: l) i o1 = (if o.id = i then o1 else o) :: updateById l i o1 := rfl

lemma relationLoop_ok_others (args : Args) (g : Geom) (rt : String)
    (target : ZendoObject) (others others1 : List ZendoObject)
    (cur1 : ZendoObject) (k1 : Nat) :
    ∀ (fuel k : Nat) (cur : ZendoObject),
      relationLoop args g rt target others cur k fuel =
        PhaseResult.ok (others1, cur1, k1) →
      others1 = others ∨
        ∃ face c2, others1 = updateById others target.id (set_touching target face c2) := by
  intro fuel
  induction fuel with
  | zero =>
    intro k cur h
    cases h
  | succ n ih =>
    intro k cur h
    rw [relationLoop] at h
    by_cases h1 : rt = "touching"
    · rw [if_pos h1] at h
      simp only [] at h
      rcases hface : (get_free_face target).get?
          (if args.random_face_choice then g.choiceIdx k % (get_free_face target).length
           else 0) with _ | face
      · rw [hface] at h
        simp only [] at h
        cases h
      · rw [hface] at h
        simp only [] at h
        by_cases hcol : check_collision g.corners
            (others ++ [touching_place g (rotate_z cur 90) target face])
            (touching_place g (rotate_z cur 90) target face) (some target) = []
        · rw [if_pos hcol] at h
          rcases hopp : opposite_face face with _ | oface
          · rw [hopp] at h
            cases h
          · rw [hopp] at h
            injection h with h2
            exact Or.inr ⟨face, (touching_place g (rotate_z cur 90) target face).id,
              (congrArg Prod.fst h2).symm⟩
        · rw [if_neg hcol] at h
          exact ih (k + 1) _ h
    · rw [if_neg h1] at h
      by_cases h2 : rt = "pointing"
      · rw [if_pos h2] at h
        simp only [] at h
        by_cases hcol : check_collision g.corners
            (others ++ [pointing_place g
              (move cur (get_random_position args.anchor_position (g.sample k))) target])
            (pointing_place g
              (move cur (get_random_position args.anchor_position (g.sample k))) target)
            none = []
        · rw [if_pos hcol] at h
          injection h with h3
          exact Or.inl (congrArg Prod.fst h3).symm
        · rw [if_neg hcol] at h
          exact ih (k + 1) _ h
      · rw [if_neg h2] at h
        exact ih k _ h

lemma relationStep_head_pos (args : Args) (g : Geom) (rt : String)
    (target cur : ZendoObject) (o : ZendoObject)
    (rest others1 : List ZendoObject) (cur1 : ZendoObject) (k k1 fuel : Nat)
    (d : Nat) (htar : get_object ((o :: rest) ++ [cur]) d = some target)
    (h : relationLoop args g rt target (o :: rest) cur k fuel =
      PhaseResult.ok (others1, cur1, k1)) :
    ∃ o1 rest1, others1 = o1 :: rest1 ∧ o1.id = o.id ∧ o1.pos = o.pos := by
  rcases relationLoop_ok_others args g rt target (o :: rest) others1 cur1 k1 fuel k cur h
    with rfl | ⟨face, c2, rfl⟩
  · exact ⟨o, rest, rfl, rfl, rfl⟩
  · rw [updateById_cons]
    by_cases ho : o.id = target.id
    · have htid : target.id = d := get_object_id htar
      have hto : target = o := by
        rw [List.cons_append] at htar
        exact get_object_cons_self htar (ho.trans htid)
      refine ⟨set_touching target face c2, updateById rest target.id (set_touching target face c2),
        by rw [if_pos ho], ?_, ?_⟩
      · rw [hto]
        rfl
      · rw [hto]
        rfl
    · exact ⟨o, updateById rest target.id (set_touching target face c2),
        by rw [if_neg ho], rfl, rfl⟩

lemma placeGroundedList_ok_extends (args : Args) (g : Geom) :
    ∀ (instrs : List Instruction) (others others1 : List ZendoObject)
      (k k1 fuel : Nat),
      placeGroundedList args g instrs others k fuel = PhaseResult.ok (others1, k1) →
      ∃ suffix, others1 = others ++ suffix := by
  intro instrs
  induction instrs with
  | nil =>
    intro others others1 k k1 fuel h
    rw [placeGroundedList] at h
    injection h with h1
    have h2 : others = others1 := congrArg Prod.fst h1
    exact ⟨[], by rw [← h2, List.append_nil]⟩
  | cons instr rest ih =>
    intro others others1 k k1 fuel h
    rw [placeGroundedList] at h
    cases hc : generate_creation args g k instr with
    | error m =>
      rw [hc] at h
      cases h
    | ok cur0 =>
      rw [hc] at h
      simp only [] at h
      cases hgl : groundedLoop args g others (rotate_z cur0 90) (k + 1) fuel with
      | spin =>
        rw [hgl] at h
        cases h
      | err m r =>
        rw [hgl] at h
        cases h
      | ok p =>
        rcases p with ⟨cur2, k2⟩
        rw [hgl] at h
        simp only [] at h
        obtain ⟨s, hs⟩ := ih (others ++ [cur2]) others1 k2 k1 fuel h
        exact ⟨[cur2] ++ s, by rw [hs, List.append_assoc]⟩

lemma placeRelatedList_head_pos (args : Args) (g : Geom) :
    ∀ (instrs : List Instruction) (others others1 : List ZendoObject)
      (k k1 fuel : Nat) (o : ZendoObject) (orest : List ZendoObject),
      others = o :: orest →
      placeRelatedList args g instrs others k fuel = PhaseResult.ok (others1, k1) →
      ∃ o1 rest1, others1 = o1 :: rest1 ∧ o1.id = o.id ∧ o1.pos = o.pos := by
  intro instrs
  induction instrs with
  | nil =>
    intro others others1 k k1 fuel o orest heq h
    rw [placeRelatedList] at h
    injection h with h1
    have h2 : others = others1 := congrArg Prod.fst h1
    exact ⟨o, orest, by rw [← h2, heq], rfl, rfl⟩
  | cons instr rest2 ih =>
    intro others others1 k k1 fuel o orest heq h
    rw [placeRelatedList] at h
    cases hc : generate_creation args g k instr with
    | error m =>
      rw [hc] at h
      cases h
    | ok cur =>
      rw [hc] at h
      simp only [] at h
      cases hr : generate_relation (others ++ [cur]) instr with
      | error m =>
        rw [hr] at h
        cases h
      | ok p =>
        rcases p with ⟨rt, target⟩
        rw [hr] at h
        simp only [] at h
        cases hl : relationLoop args g rt target others cur (k + 1) fuel with
        | spin =>
          rw [hl] at h
          cases h
        | err m r =>
          rw [hl] at h
          cases h
        | ok q =>
          rcases q with ⟨o1s, c1, kx⟩
          rw [hl] at h
          simp only [] at h
          obtain ⟨d, htar⟩ := generate_relation_ok_target hr
          rw [heq] at htar hl
          obtain ⟨o1, rest1, ho1, hid, hpos⟩ :=
            relationStep_head_pos args g rt target cur o orest o1s c1 (k + 1) kx fuel d htar hl
          obtain ⟨o2, rest3, ho2, hid2, hpos2⟩ :=
            ih (o1s ++ [c1]) others1 kx k1 fuel o1 (rest1 ++ [c1])
              (by rw [ho1, List.cons_append]) h
          exact ⟨o2, rest3, ho2, hid2.trans hid, hpos2.trans hpos⟩

lemma generate_creation_ok_id {args : Args} {g : Geom} {k : Nat}
    {instr : Instruction} {o : ZendoObject}
    (h : generate_creation args g k instr = Except.ok o) : o.id = instr.id := by
  unfold generate_creation at h
  by_cases hs : instr.shape = "block" ∨ instr.shape = "wedge" ∨ instr.shape = "pyramid"
  · rw [if_pos hs] at h
    simp only [] at h
    by_cases hr : args.random_object_rotation = true
    · rw [if_pos hr] at h
      injection h with h1
      rw [← h1]
      rfl
    · rw [if_neg hr] at h
      injection h with h1
      rw [← h1]
  · rw [if_neg hs] at h
    cases h

/-- C5: whenever `generate_structure` completes on an instruction stream
whose parsed grounded list is non-empty, the anchor — the grounded
instruction with the lowest id — yields the first registered object, and
that object's final world position is exactly the configured anchor
position: neither the grounded scattering nor any relation resolution
ever moves it (touching bookkeeping may extend its adjacency map but
preserves its id and position). -/
theorem anchor_final_position_exact (args : Args) (g : Geom)
    (items : List String) (fuel : Nat) (finalReg : List ZendoObject)
    (anchor : Instruction) (grest : List Instruction)
    (hg : get_grounded (parseItems items) = anchor :: grest)
    (hok : generate_structure args g items [] fuel = GenResult.ok finalReg) :
    (∀ i ∈ get_grounded (parseItems items), anchor.id ≤ i.id) ∧
    ∃ o rest, finalReg = o :: rest ∧ o.id = anchor.id ∧
      o.pos = args.anchor_position := by
  constructor
  · intro i hi
    have hs : List.Sorted byId (get_grounded (parseItems items)) :=
      List.sorted_insertionSort byId
        ((parseItems items).filter (fun i => i.action = "grounded"))
    rw [hg] at hs hi
    rcases List.mem_cons.mp hi with rfl | hi
    · exact Nat.le_refl _
    · exact List.rel_of_sorted_cons hs i hi
  · unfold generate_structure at hok
    simp only [] at hok
    rw [hg] at hok
    simp only [] at hok
    cases hc : generate_creation args g 0 anchor with
    | error m =>
      rw [hc] at hok
      cases hok
    | ok a0 =>
      rw [hc] at hok
      simp only [] at hok
      cases hpg : placeGroundedList args g grest
          ([] ++ [move a0 args.anchor_position]) 1 fuel with
      | spin =>
        rw [hpg] at hok
        cases hok
      | err m r =>
        rw [hpg] at hok
        cases hok
      | ok p =>
        rcases p with ⟨reg1, k1⟩
        rw [hpg] at hok
        simp only [] at hok
        cases hpr : placeRelatedList args g (get_relations (parseItems items))
            reg1 k1 fuel with
        | spin =>
          rw [hpr] at hok
          cases hok
        | err m r =>
          rw [hpr] at hok
          cases hok
        | ok q =>
          rcases q with ⟨reg2, k2⟩
          rw [hpr] at hok
          simp only [] at hok
          injection hok with h2
          obtain ⟨suffix, hsuf⟩ := placeGroundedList_ok_extends args g grest
            ([] ++ [move a0 args.anchor_position]) reg1 1 k1 fuel hpg
          have hreg1 : reg1 = move a0 args.anchor_position :: suffix := by
            simpa using hsuf
          obtain ⟨o1, rest1, ho1, hid, hpos⟩ := placeRelatedList_head_pos args g
            (get_relations (parseItems items)) reg1 reg2 k1 k2 fuel
            (move a0 args.anchor_position) suffix hreg1 hpr
          refine ⟨o1, rest1, by rw [← h2]; exact ho1, ?_, ?_⟩
          · rw [hid]
            exact (generate_creation_ok_id hc : a0.id = anchor.id)
          · rw [hpos]
            rfl

/-- C5 (witness): the concrete one-instruction stream completes with the
anchor object first in the registry, at the configured anchor position
exactly. -/
theorem anchor_final_position_exact_witness :
    (∀ i ∈ get_grounded (parseItems ["item(0, red, block, flat, grounded)"]),
      (⟨0, "red", "block", "flat", "grounded"⟩ : Instruction).id ≤ i.id) ∧
    ∃ o rest,
      [(⟨0, "block", "red", "flat", ⟨0, 0, 0⟩, 0, []⟩ : ZendoObject)] = o :: rest ∧
      o.id = (⟨0, "red", "block", "flat", "grounded"⟩ : Instruction).id ∧
      o.pos = args0.anchor_position :=
  anchor_final_position_exact args0 geom0
    ["item(0, red, block, flat, grounded)"] 1
    [(⟨0, "block", "red", "flat", ⟨0, 0, 0⟩, 0, []⟩ : ZendoObject)]
    ⟨0, "red", "block", "flat", "grounded"⟩ [] (by decide) rfl

lemma sameSet_eq_false_of_missing {a b : List Nat} {i : Nat}
    (hib : i ∈ b) (hia : i ∉ a) : sameSet a b = false := by
  have hall : b.all (fun x => decide (x ∈ a)) = false :=
    List.all_eq_false.mpr ⟨i, hib, by simpa using hia⟩
  rw [sameSet, hall, Bool.and_false]

lemma waitLoop_stuck {expected written : List Nat}
    (h2 : sameSet written expected = false) :
    ∀ (fuel : Nat) (actual : List Nat), sameSet actual expected = false →
      waitLoop expected written actual fuel = none := by
  intro fuel
  induction fuel with
  | zero =>
    intro actual _
    rfl
  | succ n ih =>
    intro actual h1
    rw [waitLoop, h1]
    simp only [Bool.false_eq_true, if_false]
    exact ih written h2

/-- C2 (counterexample): a scene whose every attempt fails makes
`generate_full_scene` return failure, and then `run_generation` — which
waits until a `scene_<i>.blend` exists for every scene index — never
completes its generation phase for any number of wait iterations, so the
run never proceeds to rendering.  The failure is counted (success count
0) but it is blocking for the whole batch. -/
theorem failed_scene_blocks_batch_cex :
    generate_full_scene 25 (fun _ => false) = false ∧
    (run_generation [generate_full_scene 25 (fun _ => false)] 3).1 = 0 ∧
    ¬ ∃ fuel : Nat,
      (run_generation [generate_full_scene 25 (fun _ => false)] fuel).2 ≠ none := by
  refine ⟨by decide, by decide, ?_⟩
  rintro ⟨fuel, hne⟩
  apply hne
  show waitLoop (List.range 1) (blendFilesWritten [false]) [] fuel = none
  have h0 : (0 : Nat) ∈ List.range 1 := by decide
  have hw : (0 : Nat) ∉ blendFilesWritten [false] := by decide
  exact waitLoop_stuck (sameSet_eq_false_of_missing h0 hw) fuel []
    (sameSet_eq_false_of_missing h0 (List.not_mem_nil 0))

/-- C2 (amended): when at least one scene's generation fails (its worker
returned failure, so no `scene_<i>.blend` was saved for it), the batch
driver still counts and logs the successes, but its blend-file wait loop
then never exits: the generation phase never completes and rendering is
never reached — a single scene's exhaustion blocks the whole batch run
indefinitely. -/
theorem failed_scene_blocks_batch (results : List Bool) (fuel : Nat)
    (h : false ∈ results) :
    (run_generation results fuel).1 = (results.filter (fun b => b)).length ∧
    (run_generation results fuel).2 = none := by
  refine ⟨rfl, ?_⟩
  obtain ⟨i, hi, hget⟩ := List.getElem_of_mem h
  have hgetD : results.getD i false = false := by
    rw [List.getD_eq_getElem?_getD, List.getElem?_eq_getElem hi, hget]
    rfl
  have hiw : i ∉ blendFilesWritten results := by
    intro hmem
    have hp := (List.mem_filter.mp hmem).2
    rw [hgetD] at hp
    cases hp
  have hie : i ∈ List.range results.length := List.mem_range.mpr hi
  show waitLoop (List.range results.length) (blendFilesWritten results) [] fuel = none
  exact waitLoop_stuck (sameSet_eq_false_of_missing hie hiw) fuel []
    (sameSet_eq_false_of_missing hie (List.not_mem_nil i))

/-- C2 (witness): a batch of one failed and one successful scene — the
success is counted, the generation phase never completes. -/
theorem failed_scene_blocks_batch_witness :
    false ∈ [false, true] ∧
    (run_generation [false, true] 7).1 = 1 ∧
    (run_generation [false, true] 7).2 = none := by
  have h := failed_scene_blocks_batch [false, true] 7 (by decide)
  exact ⟨by decide, by rw [h.1]; decide, h.2⟩

/-- C3 (counterexample): on the action `touching(12)` with objects of
ids 12 and 1 both registered, `generate_relation` resolves the target to
the object with id 1 — the value of the first digit only — and not to
the object with id 12 the claim requires. -/
theorem generate_relation_multi_digit_cex :
    generate_relation [obj12, objB] instTouching12 = Except.ok ("touching", objB) ∧
    objB.id = 1 ∧ obj12.id = 12 ∧
    generate_relation [obj12, objB] instTouching12 ≠ Except.ok ("touching", obj12) := by
  refine ⟨by rfl, by rfl, by rfl, ?_⟩
  intro h
  have h2 : (Except.ok ("touching", objB) : Except String (String × ZendoObject)) =
      Except.ok ("touching", obj12) := by
    rw [← h]
    rfl
  have h3 : objB = obj12 := congrArg Prod.snd (Except.ok.inj h2)
  exact absurd (congrArg ZendoObject.id h3) (by decide)

/-- C3 (amended): for a relational action of the grammar shape
`<relation>(<target_id>)`, `generate_relation` returns the relation name
and the registered object whose id equals the numeric value of the FIRST
decimal digit of `target_id`; the claimed behaviour therefore holds
exactly for single-digit target ids. -/
theorem generate_relation_first_digit (instances : List ZendoObject)
    (inst : Instruction) (rel : List Char) (d : Char) (ds : List Char)
    (t : ZendoObject)
    (hact : inst.action.data = rel ++ '(' :: d :: (ds ++ [')']))
    (hrel : '(' ∉ rel)
    (hd : d.isDigit = true)
    (ht : get_object instances (d.toNat - '0'.toNat) = some t) :
    generate_relation instances inst = Except.ok (String.mk rel, t) := by
  have hdne : ¬ d = '(' := by
    intro hcontra
    rw [hcontra] at hd
    exact absurd hd (by decide)
  obtain ⟨tl, rs, hsplit⟩ := @splitOnChar_cons_head '(' d (ds ++ [')']) hdne
  rw [generate_relation, hact, splitOnChar_append hrel, hsplit]
  simp only [List.get?_cons_succ, List.get?_cons_zero, List.headD_cons]
  rw [hd]
  simp only [if_true]
  rw [ht]

/-- C3 (witness): the amended statement applied at the concrete action
`touching(12)` — the first digit 1 resolves to the object with id 1. -/
theorem generate_relation_first_digit_witness :
    generate_relation [obj12, objB] instTouching12 =
      Except.ok (String.mk "touching".data, objB) :=
  generate_relation_first_digit [obj12, objB] instTouching12
    "touching".data '1' ['2'] objB rfl (by decide) (by decide) rfl

/-- C8 (counterexample): the collision detector cannot realize an exempt
set of two ids.  With three mutually overlapping registered objects of
ids 0, 1, 2 and the exempt set {1, 2}, the spec-described result is
empty, yet `check_collision` — whatever its single `omit` argument is —
always returns a non-empty list. -/
theorem check_collision_exempt_set_cex :
    colliding_spec cubeCorners [objA, objB, objC] objA [1, 2] = [] ∧
    ∀ omitted : Option ZendoObject,
      check_collision cubeCorners [objA, objB, objC] objA omitted ≠ [] := by
  constructor
  · decide
  · intro omitted h
    by_cases hb : some objB = omitted
    · have hc : objC ∈ check_collision cubeCorners [objA, objB, objC] objA omitted := by
        refine check_collision_mem.mpr ⟨by decide, by decide, ?_, by decide⟩
        rw [← hb]
        decide
      rw [h] at hc
      exact absurd hc (List.not_mem_nil _)
    · have hbm : objB ∈ check_collision cubeCorners [objA, objB, objC] objA omitted := by
        refine check_collision_mem.mpr ⟨by decide, by decide, ?_, by decide⟩
        exact hb
      rw [h] at hbm
      exact absurd hbm (List.not_mem_nil _)

/-- C8 (amended): for every corner oracle, registry state, queried object
and single optional omitted object — the code's `omit` parameter, i.e. an
exempt set of at most one object — `check_collision` returns exactly the
registered objects other than the queried object itself and the omitted
one whose world AABBs overlap the queried object's, overlap being
inclusive on all three axes. -/
theorem check_collision_exact (corners : ZendoObject → List Vec3)
    (instances : List ZendoObject) (z : ZendoObject)
    (omitted : Option ZendoObject) (o : ZendoObject) :
    o ∈ check_collision corners instances z omitted ↔
      o ∈ instances ∧ o ≠ z ∧ some o ≠ omitted ∧
      aabbOverlap (bboxMin (corners z)) (bboxMax (corners z))
        (bboxMin (corners o)) (bboxMax (corners o)) = true :=
  check_collision_mem

end Zendo
